import Mathlib

/-!
Verification of the finding-ingestion and source-file-resolution pipeline of the
omega-triage-portal repository, as implemented in
`src/triage/util/finding_importers/sarif_importer.py` (class `SARIFImporter`).

The Python code is shallowly embedded below.  Strings are Lean `String`s and the
string manipulations of the source (`str.split("/")`, `"/".join`, `str.endswith`,
`str.strip("/")`, `str.upper`, `os.path.basename`) are implemented over the
underlying character lists so that they are executable and kernel-reducible.
Django ORM state (the persisted `Finding` and `Tool` rows) is modelled as
explicit lists of records threaded through the import, and a Python `raise` is
modelled by an explicit `raised`/`error` outcome carrying the state committed so
far.  `get_complex(obj, "a.b.c", default)` (from `triage/util/general.py`, whose
source is not part of the reviewed tree) is modelled from the spec as tolerant
nested field access returning the default (`None` unless given) when a field is
missing; fields that the SARIF document may lack are therefore `Option`s here.
-/

namespace OmegaTriage

/-! ## String helpers mirroring the Python string operations -/

/-- Python `str.split(sep)` for a single-character separator, over a character
list.  Like Python (and unlike ignoring-empty splitters), it keeps empty
segments: `"".split("/") = [""]`, `"/a".split("/") = ["", "a"]`. -/
def splitChar (sep : Char) : List Char → List (List Char)
  | [] => [[]]
  | c :: cs =>
    let r := splitChar sep cs
    if c = sep then [] :: r
    else
      match r with
      | [] => [[c]]
      | h :: t => (c :: h) :: t

/-- Python `path.split("/")`. -/
def strSplit (s : String) : List String :=
  (splitChar '/' s.data).map (fun l => String.mk l)

/-- Python `"/".join(parts)`. -/
def joinSlash : List String → String
  | [] => ""
  | [p] => p
  | p :: ps => p ++ "/" ++ joinSlash ps

/-- Python `s.endswith(t)`. -/
def strEndsWith (s t : String) : Bool :=
  t.data.isSuffixOf s.data

/-- Python `s.upper()` (the values reaching it in the source are ASCII). -/
def strUpper (s : String) : String :=
  String.mk (s.data.map Char.toUpper)

/-- Python `s.strip("/")` (`os.path.sep` is `"/"`): drop leading and trailing
slashes. -/
def stripSlashes (s : String) : String :=
  String.mk (((s.data.dropWhile (fun c => c = '/')).reverse.dropWhile
    (fun c => c = '/')).reverse)

/-- Python `os.path.basename(p)`: everything after the last `"/"`. -/
def basename (p : String) : String :=
  (strSplit p).getLastD ""

/-- Case-insensitive prefix test: the embedding of
`re.match(r"^LITERAL.*", title, re.IGNORECASE)` for a metacharacter-free
`LITERAL`, which matches exactly when `title` starts with `LITERAL` up to
(ASCII) case. -/
def ciStartsWith (s pre : String) : Bool :=
  (pre.data.map Char.toLower).isPrefixOf (s.data.map Char.toLower)

/-! ## Data model (triage.models) -/

/-- A `File` row of a `ProjectVersion`'s source tree (`triage/models/file.py`):
only its identity and its `path` are read by the importer. -/
structure File where
  id : Nat
  path : String
deriving DecidableEq, Repr

/-- A `ProjectVersion` row; `files` is `project_version.files.all()` in its
database order (the importer only reads it). -/
structure ProjectVersion where
  id : Nat
  files : List File
deriving DecidableEq, Repr

/-- Modelled from the spec: `Finding.SeverityLevel.parse` (in
`triage/models/finding.py`, not part of the reviewed tree) is a tolerant
parser mapping a missing/unparseable level to `NOT_SPECIFIED` and never
raising.  No claim depends on the exact mapping, so a present level is kept
verbatim. -/
inductive SeverityLevel where
  | notSpecified
  | parsed (raw : String)
deriving DecidableEq, Repr

def SeverityLevel.parse : Option String → SeverityLevel
  | none => .notSpecified
  | some s => .parsed s

/-- The fields of a persisted `Finding` row that the importer writes
(`finding.state` is always `WorkItemState.NEW` at creation and is omitted).
`title` and `normalizedTitle` are non-optional because a `None` message makes
the importer raise inside `normalize_title` before any row is built. -/
structure FindingRec where
  title : String
  normalizedTitle : String
  fileId : Nat
  filePath : String
  toolName : Option String
  toolVersion : Option String
  pvId : Nat
  fileLine : Option Int
  severity : SeverityLevel
  createdBy : Nat
deriving DecidableEq, Repr

/-- A persisted `Tool` row (`Tool.objects.get_or_create(name=…, version=…)`). -/
structure ToolRec where
  name : Option String
  version : Option String
  createdBy : Nat
deriving DecidableEq, Repr

/-! ## SARIF document shape (the subset the importer reads) -/

/-- `physicalLocation.artifactLocation` of a result location; both fields are
optional in SARIF and are read through `get_complex`. -/
structure ArtifactLocation where
  uri : Option String
  uriBaseId : Option String
deriving DecidableEq, Repr

/-- One entry of a result's `locations` list. -/
structure SarifLocation where
  artifactLocation : Option ArtifactLocation
  startLine : Option Int
deriving DecidableEq, Repr

/-- One entry of `tool.driver.rules`. -/
structure SarifRule where
  id : Option String
  shortDescription : Option String
deriving DecidableEq, Repr

/-- One entry of a run's `results` list; `message` is `message.text`. -/
structure SarifResult where
  ruleId : Option String
  message : Option String
  level : Option String
  locations : Option (List SarifLocation)
deriving DecidableEq, Repr

/-- One entry of the document's `runs` list; `toolName`/`toolVersion` are
`tool.driver.name` / `tool.driver.version`, and `results` stands for
`run.get("results", [])` (an absent key is the empty list).  `rules` has no
default in the source, so an absent `tool.driver.rules` is `none`. -/
structure SarifRun where
  toolName : Option String
  toolVersion : Option String
  rules : Option (List SarifRule)
  results : List SarifResult
deriving DecidableEq, Repr

/-- The SARIF document; `runs` stands for `sarif.get("runs", [])`.  The
`assertion_data` side channel (source lines 62-66) is omitted from the model:
`add_assertion` only appends `Assertion`/`AssertionsPerPackage` rows, catches
every exception internally, and its boolean result is discarded, so it cannot
influence the `Finding` table, the returned boolean, or whether the call
raises. -/
structure SarifDoc where
  version : Option String
  runs : List SarifRun
deriving DecidableEq, Repr

/-- The `sarif` argument of `import_sarif_file`: Python `None`, a non-dict
value, or an actual document. -/
inductive SarifInput where
  | none
  | nonDocument
  | document (doc : SarifDoc)
deriving DecidableEq, Repr

/-- Stand-in for the run-local dedup key
`hashlib.sha256(json.dumps({"title": …, "path": …, "line_number": …})).digest()`:
since the serialization of the three-field dict (in fixed insertion order) is
injective and SHA-256 is collision-resistant, digest equality is equality of
the triple, which the model uses directly. -/
structure DedupKey where
  title : Option String
  path : Option String
  lineNumber : Option Int
deriving DecidableEq, Repr

/-! ## SARIFImporter helper methods -/

/-- `SARIFImporter.normalize_file_path` (source lines 217-227):

    try:
        result = path
        if path.split("/")[2] == "package":
            result = "/".join(path.split("/")[2:])
        return result
    except:
        return path

The only exception the body can raise on a string is the `IndexError` of
`path.split("/")[2]` when the split has fewer than 3 segments; `getD … ""`
returns `""` (never equal to `"package"`) exactly in that case, so the
bare-except fallback is the `else` branch. -/
def normalize_file_path (path : String) : String :=
  let parts := strSplit path
  if (parts.getD 2 "") = "package" then joinSlash (parts.drop 2) else path

/-- `SARIFImporter.normalize_title` (source lines 229-238): the ordered pattern
table, evaluated top to bottom, first match wins (Python dicts iterate in
insertion order), `re.match` with `re.IGNORECASE` embedded as the
case-insensitive literal-prefix test `ciStartsWith`. -/
def normalize_title (title : String) : String :=
  if ciStartsWith title "Bracket object notation with user input is present" then
    "Bracket object notation"
  else if ciStartsWith title "Object injection via bracket notation" then
    "Object injection"
  else if ciStartsWith title "`ref` usage found" then
    "Use of `ref`"
  else title

/-- The candidate set of `get_most_likely_source` (source lines 247-249):
`project_version.files.filter(path__endswith=os.path.basename(file_path))`,
keeping the stored order. -/
def possibleFiles (pv : ProjectVersion) (file_path : String) : List File :=
  pv.files.filter (fun f => strEndsWith f.path (basename file_path))

/-- The suffix probed at step `i` of the shortest-suffix loop:
`os.path.sep + os.path.sep.join(parts[i:])`. -/
def suffixTarget (parts : List String) (i : Nat) : String :=
  "/" ++ joinSlash (parts.drop i)

/-- One iteration of the shortest-suffix loop: the first candidate delivered
for level `i` (the inner `for`/`break` of source lines 273-277) overwrites
`best_option`; with no hit, `best_option` is kept. -/
def overwriteStep {A : Type} (g : Nat → Option A) (best : Option A) (i : Nat) :
    Option A :=
  match g i with
  | some x => some x
  | Option.none => best

/-- The loop of source lines 269-277: `for i in range(len(parts)-1, -1, -1)`
(shortest suffix first), and at each `i` the first candidate in order whose
path ends with the target overwrites `best_option` (the inner `break`). -/
def bestLoop (cands : List File) (parts : List String) : Option File :=
  (List.range parts.length).reverse.foldl
    (overwriteStep
      (fun i => cands.find? (fun f => strEndsWith f.path (suffixTarget parts i))))
    Option.none

/-- `SARIFImporter.get_most_likely_source` (source lines 240-279). -/
def get_most_likely_source (pv : ProjectVersion) (file_path : String) :
    Option File :=
  let possible := possibleFiles pv file_path
  if possible.isEmpty then Option.none
  else if possible.length = 1 then possible.head?
  else bestLoop possible (strSplit (stripSlashes file_path))

/-! ## The import pipeline -/

/-- Database state threaded through an import call: the persisted `Tool` and
`Finding` rows. -/
structure ImportSt where
  tools : List ToolRec
  findings : List FindingRec
deriving DecidableEq, Repr

/-- The mutable state of the main loop: the database plus the run-local
`processed` key set and the `num_imported` counter. -/
structure LoopSt where
  tools : List ToolRec
  findings : List FindingRec
  processed : List DedupKey
  numImported : Nat
deriving DecidableEq, Repr

/-- `Tool.objects.get_or_create(name=…, version=…, defaults=…)` (source lines
75-83): return the first stored tool with this name and version, or create and
append one. -/
def getOrCreateTool (tools : List ToolRec) (name version : Option String)
    (user : Nat) : ToolRec × List ToolRec :=
  match tools.find? (fun t => t.name == name && t.version == version) with
  | some t => (t, tools)
  | Option.none =>
    let t : ToolRec := ⟨name, version, user⟩
    (t, tools ++ [t])

/-- The pre-insert existence check
`Finding.objects.filter(title=…, file=…, file_line=…, project_version=…)`
(source lines 158-163), applied to one stored row. -/
def matchesFinding (title : String) (fileId : Nat) (fileLine : Option Int)
    (pvId : Nat) (f : FindingRec) : Bool :=
  f.title == title && f.fileId == fileId && f.fileLine == fileLine
    && f.pvId == pvId

/-- Source lines 110-169: everything after the `uriBaseId` root check of one
location iteration.  A Python exception is `Except.error` carrying the message
and the loop state already committed when it was raised:
`os.path.basename(None)` raises `TypeError` when the location has no `uri`,
and `re.match(…, None)` inside `normalize_title` raises `TypeError` when the
result has no `message.text`. -/
def processLocationBody (pv : ProjectVersion) (user : Nat) (tool : ToolRec)
    (message level : Option String) (loc : SarifLocation) (acc : LoopSt) :
    Except (String × LoopSt) LoopSt :=
    let uri := loc.artifactLocation.bind ArtifactLocation.uri
    let key : DedupKey := ⟨message, uri, loc.startLine⟩
    match acc.processed.contains key with
    | true => .ok { acc with numImported := acc.numImported + 1 }
    | false =>
      let acc' := { acc with processed := key :: acc.processed }
      match uri with
      | Option.none =>
        .error ("TypeError: os.path.basename(None)", acc')
      | some u =>
        let file_path := normalize_file_path u
        match get_most_likely_source pv file_path with
        | Option.none => .ok acc'
        | some file =>
          match message with
          | Option.none =>
            .error ("TypeError: re.match on None in normalize_title", acc')
          | some msg =>
            let fnd : FindingRec :=
              { title := msg
                normalizedTitle := normalize_title msg
                fileId := file.id
                filePath := file.path
                toolName := tool.name
                toolVersion := tool.version
                pvId := pv.id
                fileLine := loc.startLine
                severity := SeverityLevel.parse level
                createdBy := user }
            match acc'.findings.any
                (matchesFinding msg file.id loc.startLine pv.id) with
            | true => .ok acc'
            | false =>
              .ok { acc' with
                      findings := acc'.findings ++ [fnd]
                      numImported := acc'.numImported + 1 }

/-- The body of `for location in get_complex(result, "locations")` (source
lines 100-169): the `uriBaseId` root check of lines 106-108 (`continue` when a
present base id is not case-insensitively `%SRCROOT%`/`SRCROOT`, with the
missing value defaulting to `"%SRCROOT%"`), followed by the key/dedup/resolve/
persist logic of `processLocationBody`. -/
def processLocation (pv : ProjectVersion) (user : Nat) (tool : ToolRec)
    (message level : Option String) (loc : SarifLocation) (acc : LoopSt) :
    Except (String × LoopSt) LoopSt :=
  let srcRoot :=
    strUpper ((loc.artifactLocation.bind ArtifactLocation.uriBaseId).getD
      "%SRCROOT%")
  match srcRoot != "%SRCROOT%" && srcRoot != "SRCROOT" with
  | true => .ok acc
  | false => processLocationBody pv user tool message level loc acc

/-- The body of `for result in run.get("results", [])` (source lines 94-169);
iterating an absent `locations` key (`None`) raises `TypeError`. -/
def processResult (pv : ProjectVersion) (user : Nat) (tool : ToolRec)
    (res : SarifResult) (acc : LoopSt) : Except (String × LoopSt) LoopSt :=
  match res.locations with
  | Option.none =>
    .error ("TypeError: NoneType object is not iterable (locations)", acc)
  | some locs =>
    locs.foldlM
      (fun a loc => processLocation pv user tool res.message res.level loc a)
      acc

/-- The `rule_description_map` of source lines 87-92 (`if rule_id and
rule_description` keeps only truthy, i.e. nonempty, values).  It is built and
then never read, which the source also does. -/
def ruleDescriptionMap (rules : List SarifRule) : List (String × String) :=
  rules.foldl
    (fun m r =>
      match r.id, r.shortDescription with
      | some i, some d => if i ≠ "" && d ≠ "" then (i, d) :: m else m
      | _, _ => m)
    []

/-- The body of `for run in sarif.get("runs", [])` (source lines 72-169);
iterating an absent `tool.driver.rules` (`None`) raises `TypeError`. -/
def processRun (pv : ProjectVersion) (user : Nat) (acc : LoopSt)
    (run : SarifRun) : Except (String × LoopSt) LoopSt :=
  let tt := getOrCreateTool acc.tools run.toolName run.toolVersion user
  let acc' := { acc with tools := tt.2 }
  match run.rules with
  | Option.none =>
    .error ("TypeError: NoneType object is not iterable (rules)", acc')
  | some rules =>
    let _rdm := ruleDescriptionMap rules
    run.results.foldlM (fun a res => processResult pv user tt.1 res a) acc'

/-- The outcome of a call to `import_sarif_file`: a raised exception or a
returned boolean, each with the database state at that moment. -/
inductive ImportOutcome where
  | raised (msg : String) (st : ImportSt)
  | returned (result : Bool) (st : ImportSt)
deriving DecidableEq, Repr

def ImportOutcome.stateOf : ImportOutcome → ImportSt
  | .raised _ st => st
  | .returned _ st => st

def ImportOutcome.isReturn : ImportOutcome → Bool
  | .raised _ _ => false
  | .returned _ _ => true

/-- `SARIFImporter.import_sarif_file` (source lines 31-176): the fail-fast
validations in source order, the fallback to the system user with id 1 when
`user is None`, then the run/result/location loops.  The returned boolean is
`num_imported != 0` (source lines 171-176). -/
def import_sarif_file (sarif : SarifInput)
    (project_version : Option ProjectVersion) (user : Option Nat)
    (st : ImportSt) : ImportOutcome :=
  match sarif with
  | .none => .raised "The sarif content must not be None." st
  | .nonDocument => .raised "The sarif content must be a dict." st
  | .document doc =>
    if doc.version = some "2.1.0" then
      match project_version with
      | Option.none => .raised "The project version must not be None." st
      | some pv =>
        let u := user.getD 1
        let init : LoopSt := ⟨st.tools, st.findings, [], 0⟩
        match doc.runs.foldlM (fun a run => processRun pv u a run) init with
        | .error (msg, s) => .raised msg ⟨s.tools, s.findings⟩
        | .ok s => .returned (s.numImported != 0) ⟨s.tools, s.findings⟩
    else
      .raised "Only SARIF version 2.1.0 is supported." st

/-! ## Concrete fixtures used by witnesses and counterexamples -/

/-- A project version with a single stored file whose path ends in `app.js`. -/
def pvW : ProjectVersion := ⟨1, [⟨5, "pkg/src/app.js"⟩]⟩

def toolW : ToolRec := ⟨some "tn", some "tv", 1⟩

def locW : SarifLocation :=
  ⟨some ⟨some "app.js", some "%SRCROOT%"⟩, some 10⟩

def resW : SarifResult := ⟨Option.none, some "TitleW", some "error", some [locW]⟩

def docW : SarifDoc := ⟨some "2.1.0", [⟨some "tn", some "tv", some [], [resW]⟩]⟩

/-- The `Finding` row that importing `docW` against `pvW` creates. -/
def fndW : FindingRec :=
  ⟨"TitleW", "TitleW", 5, "pkg/src/app.js", some "tn", some "tv", 1, some 10,
    .parsed "error", 1⟩

/-- The database state after importing `docW` against `pvW` from an empty
store. -/
def stW1 : ImportSt := ⟨[toolW], [fndW]⟩

/-- A location whose reported path `x.js` matches no stored file of an empty
project version. -/
def locDup : SarifLocation :=
  ⟨some ⟨some "x.js", some "%SRCROOT%"⟩, some 1⟩

/-- A result carrying the same unresolvable location twice. -/
def resDup : SarifResult :=
  ⟨Option.none, some "Issue", Option.none, some [locDup, locDup]⟩

def docDup : SarifDoc := ⟨some "2.1.0", [⟨some "T", some "V", some [], [resDup]⟩]⟩

/-- A project version with no stored files. -/
def pvEmpty : ProjectVersion := ⟨1, []⟩

/-- A version-2.1.0 document whose single run has no `tool.driver.rules`. -/
def docNoRules : SarifDoc :=
  ⟨some "2.1.0", [⟨Option.none, Option.none, Option.none, []⟩]⟩

/-- The project version of the spec's resolver example: two stored files with
the colliding basename `index.js`. -/
def pvEx : ProjectVersion :=
  ⟨1, [⟨0, "/repo/a/index.js"⟩, ⟨1, "/repo/b/index.js"⟩]⟩

/-- A result whose title is `t`, located at `app.js` line 10. -/
def resT (t : String) : SarifResult :=
  ⟨Option.none, some t, some "error",
    some [⟨some ⟨some "app.js", some "%SRCROOT%"⟩, some 10⟩]⟩

/-- A document with two results differing only in their raw titles. -/
def docTT (t₁ t₂ : String) : SarifDoc :=
  ⟨some "2.1.0", [⟨some "tn", some "tv", some [], [resT t₁, resT t₂]⟩]⟩

/-- The run-local dedup key the importer computes for `resT t` at `locW`. -/
def keyT (t : String) : DedupKey := ⟨some t, some "app.js", some 10⟩

/-- The `Finding` row the importer builds for `resT t` against `pvW`. -/
def fndT (t : String) : FindingRec :=
  ⟨t, normalize_title t, 5, "pkg/src/app.js", some "tn", some "tv", 1, some 10,
    .parsed "error", 1⟩

/-- Two distinct raw titles that normalize to the same canonical title. -/
def titleA : String := "Object injection via bracket notation A"

def titleB : String := "Object injection via bracket notation B"

/-! ## General lemmas about the loop folds -/

theorem except_bind_ok {E α β : Type} (a : α) (f : α → Except E β) :
    (Except.ok a >>= f) = f a := rfl

theorem except_bind_error {E α β : Type} (e : E) (f : α → Except E β) :
    ((Except.error e : Except E α) >>= f) = Except.error e := rfl

theorem foldlM_ok_nil {E σ β : Type} (f : σ → β → Except E σ) (s : σ) :
    List.foldlM f s ([] : List β) = .ok s := rfl

theorem foldlM_ok_cons {E σ β : Type} (f : σ → β → Except E σ) (x : β)
    (l : List β) (s s' : σ) (h : f s x = .ok s') :
    List.foldlM f s (x :: l) = List.foldlM f s' l := by
  rw [List.foldlM_cons, h, except_bind_ok]

/-- A transitive relation preserved by every successful step of an exceptional
fold is preserved by the whole fold. -/
theorem foldlM_ok_rel {E σ β : Type} (f : σ → β → Except E σ)
    (P : σ → σ → Prop) (hrefl : ∀ a, P a a)
    (htrans : ∀ a b c, P a b → P b c → P a c)
    (hstep : ∀ a x a', f a x = .ok a' → P a a') :
    ∀ (L : List β) (a a' : σ), List.foldlM f a L = .ok a' → P a a' := by
  intro L
  induction L with
  | nil =>
    intro a a' h
    rw [foldlM_ok_nil] at h
    cases h
    exact hrefl a
  | cons x t ih =>
    intro a a' h
    rw [List.foldlM_cons] at h
    cases hf : f a x with
    | error e =>
      rw [hf, except_bind_error] at h
      exact Except.noConfusion h
    | ok amid =>
      rw [hf, except_bind_ok] at h
      exact htrans _ _ _ (hstep a x amid hf) (ih amid a' h)

/-- Across one successful loop step, the stored findings only grow (by
appending) and the counter grows at least as much as the findings list. -/
def StepInv (a a' : LoopSt) : Prop :=
  a.findings ⊆ a'.findings ∧
  a.numImported + a'.findings.length ≤ a'.numImported + a.findings.length

theorem stepInv_refl (a : LoopSt) : StepInv a a :=
  ⟨fun _ hr => hr, le_refl _⟩

theorem stepInv_trans (a b c : LoopSt) (h1 : StepInv a b) (h2 : StepInv b c) :
    StepInv a c := by
  obtain ⟨s1, n1⟩ := h1
  obtain ⟨s2, n2⟩ := h2
  exact ⟨fun r hr => s2 (s1 hr), by omega⟩

theorem processLocation_inv (pv : ProjectVersion) (u : Nat) (tool : ToolRec)
    (m lv : Option String) (loc : SarifLocation) (a a' : LoopSt)
    (h : processLocation pv u tool m lv loc a = .ok a') : StepInv a a' := by
  cases m <;>
    (unfold processLocation processLocationBody at h
     dsimp only at h
     repeat' split at h) <;>
  first
    | exact Except.noConfusion h
    | (cases h
       refine ⟨?_, ?_⟩
       · first
          | exact fun _ hr => hr
          | exact List.subset_append_left _ _
       · dsimp only
         try simp only [List.length_append, List.length_cons, List.length_nil]
         omega)

theorem processResult_inv (pv : ProjectVersion) (u : Nat) (tool : ToolRec)
    (res : SarifResult) (a a' : LoopSt)
    (h : processResult pv u tool res a = .ok a') : StepInv a a' := by
  unfold processResult at h
  split at h
  · exact Except.noConfusion h
  · exact foldlM_ok_rel _ StepInv stepInv_refl stepInv_trans
      (fun b loc b' hb =>
        processLocation_inv pv u tool res.message res.level loc b b' hb)
      _ _ _ h

theorem processRun_inv (pv : ProjectVersion) (u : Nat) (a : LoopSt)
    (run : SarifRun) (a' : LoopSt) (h : processRun pv u a run = .ok a') :
    StepInv a a' := by
  unfold processRun at h
  dsimp only at h
  split at h
  · exact Except.noConfusion h
  · have h2 := foldlM_ok_rel _ StepInv stepInv_refl stepInv_trans
      (fun b res b' hb => processResult_inv pv u _ res b b' hb) _ _ _ h
    exact stepInv_trans _ _ _ ⟨fun _ hr => hr, le_refl _⟩ h2

/-! ## Claim C1 -/

/-- C1 counterexample: importing `docDup` (one result carrying the same
unresolvable location twice) against a project version with no stored files
returns `true` although the `Finding` table stays empty.  The first occurrence
of the location adds its dedup key to `processed` and is then skipped because
no file resolves (no counter increment), but the second occurrence hits the
`key in processed` branch, which increments `num_imported` without persisting
anything — so the returned boolean is not `true` iff a `Finding` was created. -/
theorem c1_counterexample :
    import_sarif_file (.document docDup) (some pvEmpty) (some 7) ⟨[], []⟩
      = .returned true ⟨[⟨some "T", some "V", 7⟩], []⟩ := by rfl

/-- C1 (amended): the boolean `import_sarif_file` returns is `num_imported != 0`,
and the counter is at least the number of `Finding` rows created by the call,
so whenever the call returns after creating at least one new `Finding` row the
result is `true`.  (The converse direction of the original claim is false:
`num_imported` also counts run-local duplicate key occurrences, see the
counterexample.) -/
theorem c1_theorem (sarif : SarifInput) (pv : Option ProjectVersion)
    (user : Option Nat) (st : ImportSt) (b : Bool) (st' : ImportSt)
    (h : import_sarif_file sarif pv user st = .returned b st')
    (hgrow : st.findings.length < st'.findings.length) : b = true := by
  cases sarif with
  | none =>
    unfold import_sarif_file at h
    exact ImportOutcome.noConfusion h
  | nonDocument =>
    unfold import_sarif_file at h
    exact ImportOutcome.noConfusion h
  | document doc =>
    unfold import_sarif_file at h
    dsimp only at h
    split at h
    · split at h
      · exact ImportOutcome.noConfusion h
      · split at h
        · exact ImportOutcome.noConfusion h
        · rename_i s heq
          injection h with hb hst
          subst hst
          have hinv := foldlM_ok_rel _ StepInv stepInv_refl stepInv_trans
            (fun a run a' hrun => processRun_inv _ _ a run a' hrun)
            _ _ _ heq
          obtain ⟨hsub, hnum⟩ := hinv
          dsimp only at hnum hgrow
          rw [← hb]
          simp only [bne_iff_ne, ne_eq]
          omega
    · exact ImportOutcome.noConfusion h

/-- Witness for C1: importing `docW` against `pvW` from an empty store creates
one `Finding` row and returns `true`. -/
theorem c1_witness :
    import_sarif_file (.document docW) (some pvW) (some 1) ⟨[], []⟩
        = .returned true stW1
      ∧ (⟨[], []⟩ : ImportSt).findings.length < stW1.findings.length
      ∧ true = true :=
  ⟨by rfl, by decide,
    c1_theorem (.document docW) (some pvW) (some 1) ⟨[], []⟩ true stW1
      (by rfl) (by decide)⟩

/-! ## Claim C3 -/

/-- C3 counterexample: on the spec's own example input
`"/a/b/package/src/x.js"` the normalizer does not return
`"package/src/x.js"` — the leading slash makes segment index 2 `"b"`, not
`"package"`, so the path comes back unchanged. -/
theorem c3_counterexample :
    normalize_file_path "/a/b/package/src/x.js" ≠ "package/src/x.js"
      ∧ normalize_file_path "/a/b/package/src/x.js" = "/a/b/package/src/x.js" := by
  constructor
  · decide
  · rfl

/-- C3 (amended): the index-2 rule yields `"package/src/x.js"` for the input
without a leading slash, `"a/b/package/src/x.js"`, whose segment at index 2 is
`"package"`; for the spec's slash-prefixed example the segment at index 2 is
`"b"` and the input is returned unchanged. -/
theorem c3_theorem :
    normalize_file_path "a/b/package/src/x.js" = "package/src/x.js"
      ∧ (strSplit "a/b/package/src/x.js").getD 2 "" = "package"
      ∧ normalize_file_path "/a/b/package/src/x.js" = "/a/b/package/src/x.js"
      ∧ (strSplit "/a/b/package/src/x.js").getD 2 "" = "b" := by
  refine ⟨by rfl, by rfl, by rfl, by rfl⟩

/-! ## Claim C6 -/

/-- C6: the normalizer is total, and every input whose split has fewer than 3
segments is returned unchanged (in the source this is the `IndexError` of
`path.split("/")[2]` swallowed by the bare `except`); in particular
`normalize_file_path "a/b" = "a/b"`. -/
theorem c6_theorem :
    (∀ p : String, (strSplit p).length < 3 → normalize_file_path p = p)
      ∧ normalize_file_path "a/b" = "a/b" := by
  constructor
  · intro p hlen
    unfold normalize_file_path
    dsimp only
    have hd : (strSplit p).getD 2 "" = "" :=
      List.getD_eq_default _ _ (by omega)
    rw [hd]
    simp
  · rfl

/-- Witness for C6 at the spec's example `"a/b"`. -/
theorem c6_witness :
    (strSplit "a/b").length < 3 ∧ normalize_file_path "a/b" = "a/b" :=
  ⟨by decide, c6_theorem.1 "a/b" (by decide)⟩

/-! ## Claim C7 -/

/-- Two prefixes (in the boolean `isPrefixOf` sense) of the same character
list are comparable. -/
theorem isPrefixOf_comparable {l₁ l₂ l₃ : List Char}
    (h₁ : l₁.isPrefixOf l₃ = true) (h₂ : l₂.isPrefixOf l₃ = true) :
    l₁.isPrefixOf l₂ = true ∨ l₂.isPrefixOf l₁ = true := by
  induction l₃ generalizing l₁ l₂ with
  | nil =>
    cases l₁ with
    | nil => left; simp
    | cons x xs => simp at h₁
  | cons a t ih =>
    cases l₁ with
    | nil => left; simp
    | cons x xs =>
      cases l₂ with
      | nil => right; rfl
      | cons y ys =>
        simp only [List.isPrefixOf_cons₂, Bool.and_eq_true, beq_iff_eq] at h₁ h₂ ⊢
        obtain ⟨hx, h₁'⟩ := h₁
        obtain ⟨hy, h₂'⟩ := h₂
        subst hx; subst hy
        rcases ih h₁' h₂' with h | h
        · exact Or.inl ⟨rfl, h⟩
        · exact Or.inr ⟨rfl, h⟩

/-- C7: `normalize_title` evaluates its pattern table in order and returns the
canonical replacement of the first case-insensitive match: every title
matching the `"Object injection via bracket notation"` pattern normalizes to
exactly `"Object injection"` (such a title cannot also match the earlier
`"Bracket object notation…"` pattern, whose literal is incomparable), and a
title matching none of the three patterns is returned unchanged. -/
theorem c7_theorem :
    (∀ t : String,
        ciStartsWith t "Object injection via bracket notation" = true →
        normalize_title t = "Object injection")
      ∧ (∀ t : String,
          ciStartsWith t "Bracket object notation with user input is present"
              = false →
          ciStartsWith t "Object injection via bracket notation" = false →
          ciStartsWith t "`ref` usage found" = false →
          normalize_title t = t) := by
  constructor
  · intro t h2
    have h1 : ciStartsWith t
        "Bracket object notation with user input is present" = false := by
      cases hc : ciStartsWith t
          "Bracket object notation with user input is present" with
      | false => rfl
      | true =>
        exfalso
        unfold ciStartsWith at hc h2
        rcases isPrefixOf_comparable hc h2 with h | h
        · exact absurd h (by decide)
        · exact absurd h (by decide)
    unfold normalize_title
    rw [h1, h2]
    rfl
  · intro t h1 h2 h3
    unfold normalize_title
    rw [h1, h2, h3]
    simp

/-- Witness for C7: a case-insensitive variant of the object-injection pattern
normalizes to `"Object injection"`, and an unmatched title is unchanged. -/
theorem c7_witness :
    normalize_title "object INJECTION via bracket notation in foo[bar]"
        = "Object injection"
      ∧ normalize_title "Some other title" = "Some other title" :=
  ⟨c7_theorem.1 _ (by decide),
    c7_theorem.2 "Some other title" (by decide) (by decide) (by decide)⟩

/-! ## Claim C8 -/

/-- C8: the resolver's candidate set is exactly the files whose path ends with
the basename of the reported path; with zero candidates it returns `none`, and
with exactly one candidate it returns that candidate directly (the head of the
singleton candidate list), without entering the suffix loop. -/
theorem c8_theorem (pv : ProjectVersion) (path : String) :
    (possibleFiles pv path = [] → get_most_likely_source pv path = Option.none)
      ∧ ((possibleFiles pv path).length = 1 →
          get_most_likely_source pv path = (possibleFiles pv path).head?) := by
  constructor
  · intro h
    unfold get_most_likely_source
    rw [h]
    rfl
  · intro h
    unfold get_most_likely_source
    dsimp only
    have hne : (possibleFiles pv path).isEmpty = false := by
      cases hp : possibleFiles pv path with
      | nil => rw [hp] at h; simp at h
      | cons a l => rfl
    rw [hne, h]
    simp

/-- Witness for C8: no stored file matches basename `x.js` in an empty
project, and `pvW`'s single candidate for `app.js` is returned directly. -/
theorem c8_witness :
    get_most_likely_source pvEmpty "x.js" = Option.none
      ∧ get_most_likely_source pvW "app.js" = (possibleFiles pvW "app.js").head? :=
  ⟨(c8_theorem pvEmpty "x.js").1 (by rfl),
    (c8_theorem pvW "app.js").2 (by rfl)⟩

/-! ## Claim C2 -/

/-- The overwrite fold of the suffix loop keeps the value delivered by the
last list element that produces one. -/
theorem foldl_overwrite {α : Type} (g : Nat → Option α) :
    ∀ (L : List Nat) (init : Option α),
      L.foldl (overwriteStep g) init
        = match L.reverse.findSome? g with
          | some x => some x
          | Option.none => init := by
  intro L
  induction L with
  | nil => intro init; rfl
  | cons a t ih =>
    intro init
    rw [List.foldl_cons, ih, List.reverse_cons, List.findSome?_append]
    cases ht : t.reverse.findSome? g with
    | some x => rfl
    | none =>
      dsimp only [Option.or]
      cases hg : g a <;>
        simp [overwriteStep, List.findSome?_cons, List.findSome?_nil, hg]

/-- The suffix loop's final `best_option` is the first candidate (in stored
order) that matches the longest suffix of the reported path matched by any
candidate: the loop runs shortest suffix first and each matching level
overwrites, so the last overwrite is the smallest `i`, i.e. the first hit of
`findSome?` over `i = 0, 1, 2, …`. -/
theorem bestLoop_eq_findSome (cands : List File) (parts : List String) :
    bestLoop cands parts
      = (List.range parts.length).findSome?
          (fun i => cands.find?
            (fun f => strEndsWith f.path (suffixTarget parts i))) := by
  unfold bestLoop
  rw [foldl_overwrite, List.reverse_reverse]
  cases h : (List.range parts.length).findSome?
      (fun i => cands.find?
        (fun f => strEndsWith f.path (suffixTarget parts i))) with
  | some x => rfl
  | none => rfl

/-- C2: with at least two basename candidates, the resolver returns the
first-in-order candidate whose path ends with `"/" ++` the longest suffix of
the (slash-stripped, slash-split) reported path that any candidate matches,
and `none` when no separator-prefixed suffix matches any candidate; on the
spec's example (candidates `/repo/a/index.js`, `/repo/b/index.js`, reported
path `b/index.js`) it returns the `/repo/b/index.js` entry. -/
theorem c2_theorem :
    (∀ (pv : ProjectVersion) (path : String),
        2 ≤ (possibleFiles pv path).length →
        get_most_likely_source pv path
          = (List.range (strSplit (stripSlashes path)).length).findSome?
              (fun i => (possibleFiles pv path).find?
                (fun f => strEndsWith f.path
                  (suffixTarget (strSplit (stripSlashes path)) i))))
      ∧ get_most_likely_source pvEx "b/index.js"
          = some ⟨1, "/repo/b/index.js"⟩ := by
  constructor
  · intro pv path hlen
    unfold get_most_likely_source
    dsimp only
    have hne : (possibleFiles pv path).isEmpty = false := by
      cases hp : possibleFiles pv path with
      | nil => rw [hp] at hlen; simp at hlen
      | cons a l => rfl
    have hone : ¬((possibleFiles pv path).length = 1) := by omega
    rw [hne]
    simp only [Bool.false_eq_true, if_false, hone, if_neg hone]
    exact bestLoop_eq_findSome _ _
  · rfl

/-- Witness for C2 at the spec's example: `pvEx` has two basename candidates
for `b/index.js`, and the loop result equals the longest-suffix
characterization (both evaluating to the `/repo/b/index.js` entry). -/
theorem c2_witness :
    2 ≤ (possibleFiles pvEx "b/index.js").length
      ∧ get_most_likely_source pvEx "b/index.js"
          = (List.range (strSplit (stripSlashes "b/index.js")).length).findSome?
              (fun i => (possibleFiles pvEx "b/index.js").find?
                (fun f => strEndsWith f.path
                  (suffixTarget (strSplit (stripSlashes "b/index.js")) i))) :=
  ⟨by decide, c2_theorem.1 pvEx "b/index.js" (by decide)⟩

/-! ## Claim C9 -/

/-- A location that passes the root check never leaves the loop state exactly
unchanged: it raises, or extends `processed`, or increments the counter. -/
theorem processLocationBody_ne (pv : ProjectVersion) (u : Nat)
    (tool : ToolRec) (m lv : Option String) (loc : SarifLocation)
    (acc : LoopSt) :
    processLocationBody pv u tool m lv loc acc ≠ .ok acc := by
  intro h
  cases m <;>
    (unfold processLocationBody at h
     dsimp only at h
     repeat' split at h) <;>
  first
    | exact Except.noConfusion h
    | (simp only [Except.ok.injEq] at h
       first
         | exact absurd (congrArg LoopSt.numImported h)
             (by dsimp only; omega)
         | exact absurd (congrArg LoopSt.processed h)
             (by dsimp only; exact List.cons_ne_self _ _))

/-- C9: a result location is skipped (the loop state returned untouched)
exactly when its artifactLocation carries a present `uriBaseId` that is not
case-insensitively `%SRCROOT%` or `SRCROOT`; a location with no `uriBaseId`
field is therefore processed — the missing value defaults to `"%SRCROOT%"`,
and such a location behaves identically to one carrying an explicit
`"%SRCROOT%"`. -/
theorem c9_theorem (pv : ProjectVersion) (u : Nat) (tool : ToolRec)
    (message level : Option String) (loc : SarifLocation) (acc : LoopSt) :
    (processLocation pv u tool message level loc acc = .ok acc ↔
      ∃ b, loc.artifactLocation.bind ArtifactLocation.uriBaseId = some b
        ∧ strUpper b ≠ "%SRCROOT%" ∧ strUpper b ≠ "SRCROOT")
    ∧ (∀ (uri : Option String) (startLine : Option Int),
        processLocation pv u tool message level
            ⟨some ⟨uri, Option.none⟩, startLine⟩ acc
          = processLocation pv u tool message level
              ⟨some ⟨uri, some "%SRCROOT%"⟩, startLine⟩ acc) := by
  constructor
  · constructor
    · intro h
      unfold processLocation at h
      dsimp only at h
      split at h
      · rename_i heq
        cases hbase : loc.artifactLocation.bind ArtifactLocation.uriBaseId with
        | none =>
          rw [hbase] at heq
          exact absurd heq (by decide)
        | some b =>
          rw [hbase] at heq
          simp only [Option.getD_some, Bool.and_eq_true, bne_iff_ne, ne_eq]
            at heq
          exact ⟨b, rfl, heq.1, heq.2⟩
      · exact absurd h (processLocationBody_ne pv u tool message level loc acc)
    · rintro ⟨b, hb, h1, h2⟩
      unfold processLocation
      dsimp only
      have hcond :
          (strUpper ((loc.artifactLocation.bind
              ArtifactLocation.uriBaseId).getD "%SRCROOT%") != "%SRCROOT%"
            && strUpper ((loc.artifactLocation.bind
              ArtifactLocation.uriBaseId).getD "%SRCROOT%") != "SRCROOT")
            = true := by
        rw [hb]
        simp only [Option.getD_some, Bool.and_eq_true, bne_iff_ne, ne_eq]
        exact ⟨h1, h2⟩
      rw [hcond]
  · intro uri startLine
    rfl

/-! ## Claim C5 -/

/-- C5 counterexample: raising is not limited to the four invalid-input cases.
`docNoRules` has version `"2.1.0"`, a present project version and a present
user, yet the importer raises: its single run lacks `tool.driver.rules`, so
`for rule in get_complex(run, "tool.driver.rules")` iterates `None`
(`TypeError`) — and this happens after the run's `Tool` row was already
persisted, so the call also does not leave the store untouched. -/
theorem c5_counterexample :
    import_sarif_file (.document docNoRules) (some pvW) (some 1) ⟨[], []⟩
        = .raised "TypeError: NoneType object is not iterable (rules)"
            ⟨[⟨Option.none, Option.none, 1⟩], []⟩
      ∧ docNoRules.version = some "2.1.0" :=
  ⟨by rfl, by rfl⟩

/-- C5 (amended): each of the four invalid-input cases — `sarif` is `None`,
`sarif` is not a dict, the version differs from `"2.1.0"`, the project version
is `None` — raises immediately, persists nothing (the state comes back exactly
as given) and returns no boolean.  These are, however, not the only raising
cases: see the counterexample. -/
theorem c5_theorem (pv : Option ProjectVersion) (user : Option Nat)
    (st : ImportSt) (doc : SarifDoc) :
    import_sarif_file .none pv user st
        = .raised "The sarif content must not be None." st
      ∧ import_sarif_file .nonDocument pv user st
          = .raised "The sarif content must be a dict." st
      ∧ (doc.version ≠ some "2.1.0" →
          import_sarif_file (.document doc) pv user st
            = .raised "Only SARIF version 2.1.0 is supported." st)
      ∧ (doc.version = some "2.1.0" →
          import_sarif_file (.document doc) Option.none user st
            = .raised "The project version must not be None." st) := by
  refine ⟨rfl, rfl, ?_, ?_⟩
  · intro hv
    unfold import_sarif_file
    dsimp only
    rw [if_neg hv]
  · intro hv
    unfold import_sarif_file
    dsimp only
    rw [if_pos hv]

/-- Witness for C5: an unsupported version and a missing project version are
both rejected with the untouched initial state. -/
theorem c5_witness :
    (some "2.0.0" : Option String) ≠ some "2.1.0"
      ∧ import_sarif_file (.document ⟨some "2.0.0", []⟩) (some pvW) (some 1)
            ⟨[], []⟩
          = .raised "Only SARIF version 2.1.0 is supported." ⟨[], []⟩
      ∧ import_sarif_file (.document ⟨some "2.1.0", []⟩) Option.none (some 1)
            ⟨[], []⟩
          = .raised "The project version must not be None." ⟨[], []⟩ :=
  ⟨by decide,
    (c5_theorem (some pvW) (some 1) ⟨[], []⟩ ⟨some "2.0.0", []⟩).2.2.1
      (by decide),
    (c5_theorem (some pvW) (some 1) ⟨[], []⟩ ⟨some "2.1.0", []⟩).2.2.2
      (by rfl)⟩

/-! ## Claim C4 -/

/-- Simulation of a location step by its re-run.  If the databases of the two
runs are aligned — the key sets agree and the second run already holds the
first run's final findings `DB`, of which every finding committed so far by
the first run is a member — then the second run's step succeeds, keeps the key
sets aligned and creates nothing (its findings stay `DB`).  The tools of the
two steps may differ: they never influence the control flow. -/
theorem processLocationBody_sim (pv : ProjectVersion) (u : Nat)
    (t₁ t₂ : ToolRec) (m lv : Option String) (loc : SarifLocation)
    (DB : List FindingRec) (a₁ a₂ a₁' : LoopSt)
    (hp : a₂.processed = a₁.processed) (hf : a₂.findings = DB)
    (h : processLocationBody pv u t₁ m lv loc a₁ = .ok a₁')
    (hdb : ∀ r, r ∈ a₁'.findings → r ∈ DB) :
    ∃ a₂', processLocationBody pv u t₂ m lv loc a₂ = .ok a₂'
      ∧ a₂'.processed = a₁'.processed ∧ a₂'.findings = DB := by
  cases m with
  | none =>
    unfold processLocationBody at h ⊢
    dsimp only at h ⊢
    rw [hp]
    split at h
    · cases h
      exact ⟨_, rfl, rfl, hf⟩
    · split at h
      · exact Except.noConfusion h
      · split at h
        · cases h
          exact ⟨_, rfl, rfl, hf⟩
        · exact Except.noConfusion h
  | some msg =>
    unfold processLocationBody at h ⊢
    dsimp only at h ⊢
    rw [hp]
    split at h
    · cases h
      exact ⟨_, rfl, rfl, hf⟩
    · split at h
      · exact Except.noConfusion h
      · split at h
        · cases h
          exact ⟨_, rfl, rfl, hf⟩
        · rename_i file hres
          split at h
          · rename_i hA
            cases h
            have hDB : DB.any
                (matchesFinding msg file.id loc.startLine pv.id) = true := by
              obtain ⟨r, hrmem, hrP⟩ := List.any_eq_true.mp hA
              exact List.any_eq_true.mpr ⟨r, hdb r hrmem, hrP⟩
            rw [hf, hDB]
            exact ⟨_, rfl, rfl, rfl⟩
          · rename_i hA
            cases h
            have hfnd := hdb _
              (List.mem_append_right _ (List.mem_singleton_self _))
            have hDB : DB.any
                (matchesFinding msg file.id loc.startLine pv.id) = true :=
              List.any_eq_true.mpr ⟨_, hfnd, by simp [matchesFinding]⟩
            rw [hf, hDB]
            exact ⟨_, rfl, rfl, rfl⟩

/-- Lifting `processLocationBody_sim` over the root check. -/
theorem processLocation_sim (pv : ProjectVersion) (u : Nat)
    (t₁ t₂ : ToolRec) (m lv : Option String) (loc : SarifLocation)
    (DB : List FindingRec) (a₁ a₂ a₁' : LoopSt)
    (hp : a₂.processed = a₁.processed) (hf : a₂.findings = DB)
    (h : processLocation pv u t₁ m lv loc a₁ = .ok a₁')
    (hdb : ∀ r, r ∈ a₁'.findings → r ∈ DB) :
    ∃ a₂', processLocation pv u t₂ m lv loc a₂ = .ok a₂'
      ∧ a₂'.processed = a₁'.processed ∧ a₂'.findings = DB := by
  unfold processLocation at h ⊢
  dsimp only at h ⊢
  split at h
  · cases h
    exact ⟨a₂, rfl, hp, hf⟩
  · exact processLocationBody_sim pv u t₁ t₂ m lv loc DB a₁ a₂ a₁' hp hf h hdb

/-- Simulation lifted over an exceptional fold: if each step of the first run
simulates, so does the whole fold. -/
theorem foldlM_sim {β : Type}
    (f₁ f₂ : LoopSt → β → Except (String × LoopSt) LoopSt)
    (DB : List FindingRec)
    (hstep : ∀ a x a', f₁ a x = .ok a' → StepInv a a')
    (hsim : ∀ a₁ a₂ x a₁', a₂.processed = a₁.processed → a₂.findings = DB →
        f₁ a₁ x = .ok a₁' → (∀ r, r ∈ a₁'.findings → r ∈ DB) →
        ∃ a₂', f₂ a₂ x = .ok a₂'
          ∧ a₂'.processed = a₁'.processed ∧ a₂'.findings = DB) :
    ∀ (L : List β) (a₁ a₂ a₁fin : LoopSt),
      a₂.processed = a₁.processed → a₂.findings = DB →
      List.foldlM f₁ a₁ L = .ok a₁fin →
      (∀ r, r ∈ a₁fin.findings → r ∈ DB) →
      ∃ a₂fin, List.foldlM f₂ a₂ L = .ok a₂fin
        ∧ a₂fin.processed = a₁fin.processed ∧ a₂fin.findings = DB := by
  intro L
  induction L with
  | nil =>
    intro a₁ a₂ a₁fin hp hf h hdb
    rw [foldlM_ok_nil] at h
    cases h
    exact ⟨a₂, foldlM_ok_nil _ _, hp, hf⟩
  | cons x t ih =>
    intro a₁ a₂ a₁fin hp hf h hdb
    rw [List.foldlM_cons] at h
    cases hstep1 : f₁ a₁ x with
    | error e =>
      rw [hstep1, except_bind_error] at h
      exact Except.noConfusion h
    | ok amid =>
      rw [hstep1, except_bind_ok] at h
      have hmiddb : ∀ r, r ∈ amid.findings → r ∈ DB := by
        have hsub : amid.findings ⊆ a₁fin.findings :=
          (foldlM_ok_rel f₁ StepInv stepInv_refl stepInv_trans hstep
            t amid a₁fin h).1
        exact fun r hr => hdb r (hsub hr)
      obtain ⟨a₂mid, h2, hp2, hf2⟩ := hsim a₁ a₂ x amid hp hf hstep1 hmiddb
      obtain ⟨a₂fin, h3, hp3, hf3⟩ := ih amid a₂mid a₁fin hp2 hf2 h hdb
      refine ⟨a₂fin, ?_, hp3, hf3⟩
      rw [List.foldlM_cons, h2, except_bind_ok]
      exact h3

/-- Simulation of a whole result (its `locations` loop). -/
theorem processResult_sim (pv : ProjectVersion) (u : Nat) (t₁ t₂ : ToolRec)
    (res : SarifResult) (DB : List FindingRec) (a₁ a₂ a₁' : LoopSt)
    (hp : a₂.processed = a₁.processed) (hf : a₂.findings = DB)
    (h : processResult pv u t₁ res a₁ = .ok a₁')
    (hdb : ∀ r, r ∈ a₁'.findings → r ∈ DB) :
    ∃ a₂', processResult pv u t₂ res a₂ = .ok a₂'
      ∧ a₂'.processed = a₁'.processed ∧ a₂'.findings = DB := by
  unfold processResult at h ⊢
  split at h
  · exact Except.noConfusion h
  · rename_i locs hlocs
    exact foldlM_sim _ _ DB
      (fun a loc a' hl =>
        processLocation_inv pv u t₁ res.message res.level loc a a' hl)
      (fun b₁ b₂ loc b₁' hbp hbf hl hldb =>
        processLocation_sim pv u t₁ t₂ res.message res.level loc DB
          b₁ b₂ b₁' hbp hbf hl hldb)
      locs a₁ a₂ a₁' hp hf h hdb

/-- Simulation of a whole run: the second run may resolve a different `Tool`
row, which changes nothing observable about findings or keys. -/
theorem processRun_sim (pv : ProjectVersion) (u : Nat) (run : SarifRun)
    (DB : List FindingRec) (a₁ a₂ a₁' : LoopSt)
    (hp : a₂.processed = a₁.processed) (hf : a₂.findings = DB)
    (h : processRun pv u a₁ run = .ok a₁')
    (hdb : ∀ r, r ∈ a₁'.findings → r ∈ DB) :
    ∃ a₂', processRun pv u a₂ run = .ok a₂'
      ∧ a₂'.processed = a₁'.processed ∧ a₂'.findings = DB := by
  unfold processRun at h ⊢
  dsimp only at h ⊢
  split at h
  · exact Except.noConfusion h
  · rename_i rules hrules
    exact foldlM_sim _ _ DB
      (fun a res a' hr => processResult_inv pv u
        (getOrCreateTool a₁.tools run.toolName run.toolVersion u).1
        res a a' hr)
      (fun b₁ b₂ res b₁' hbp hbf hr hrdb =>
        processResult_sim pv u
          (getOrCreateTool a₁.tools run.toolName run.toolVersion u).1
          (getOrCreateTool a₂.tools run.toolName run.toolVersion u).1
          res DB b₁ b₂ b₁' hbp hbf hr hrdb)
      run.results
      { a₁ with
          tools := (getOrCreateTool a₁.tools run.toolName run.toolVersion u).2 }
      { a₂ with
          tools := (getOrCreateTool a₂.tools run.toolName run.toolVersion u).2 }
      a₁' hp hf h hdb

/-- C4 (sequential idempotence): if an import call returns (state `st₁`), then
re-importing the same document against the same project version from `st₁`
also returns, and creates zero additional `Finding` rows — every insert the
second call attempts is rejected by the pre-insert existence check, because
the identical tuple was either inserted by the first call or already present
then. -/
theorem c4_theorem (doc : SarifDoc) (pv : ProjectVersion) (user : Option Nat)
    (st : ImportSt) (b₁ : Bool) (st₁ : ImportSt)
    (h : import_sarif_file (.document doc) (some pv) user st
          = .returned b₁ st₁) :
    (import_sarif_file (.document doc) (some pv) user st₁).isReturn = true
      ∧ (import_sarif_file (.document doc) (some pv) user st₁).stateOf.findings
          = st₁.findings := by
  unfold import_sarif_file at h ⊢
  dsimp only at h ⊢
  split at h
  · rename_i hv
    rw [if_pos hv]
    split at h
    · exact ImportOutcome.noConfusion h
    · rename_i s heq
      injection h with hb hst
      subst hst
      dsimp only
      obtain ⟨s₂, h2, hp2, hf2⟩ :=
        foldlM_sim (fun a run => processRun pv (user.getD 1) a run)
          (fun a run => processRun pv (user.getD 1) a run) s.findings
          (fun a run a' hr => processRun_inv pv (user.getD 1) a run a' hr)
          (fun b₁' b₂' run b₁'' hbp hbf hr hrdb =>
            processRun_sim pv (user.getD 1) run s.findings
              b₁' b₂' b₁'' hbp hbf hr hrdb)
          doc.runs ⟨st.tools, st.findings, [], 0⟩
          ⟨s.tools, s.findings, [], 0⟩ s rfl rfl heq (fun r hr => hr)
      rw [h2]
      exact ⟨rfl, hf2⟩
  · exact ImportOutcome.noConfusion h

/-- Witness for C4: importing `docW` twice from an empty store — the second
call returns with the findings of the first call unchanged. -/
theorem c4_witness :
    import_sarif_file (.document docW) (some pvW) (some 1) ⟨[], []⟩
        = .returned true stW1
      ∧ (import_sarif_file (.document docW) (some pvW) (some 1) stW1).isReturn
          = true
      ∧ (import_sarif_file (.document docW) (some pvW) (some 1)
            stW1).stateOf.findings = stW1.findings :=
  ⟨by rfl,
    (c4_theorem docW pvW (some 1) ⟨[], []⟩ true stW1 (by rfl)).1,
    (c4_theorem docW pvW (some 1) ⟨[], []⟩ true stW1 (by rfl)).2⟩

/-! ## Claim C10 -/

/-- Processing the first `resT t₁` location of `docTT` against `pvW` from an
empty store: the key and the stored row both carry the raw title `t₁`. -/
theorem c10_step1 (t₁ : String) :
    processLocation pvW 1 toolW (some t₁) (some "error")
        ⟨some ⟨some "app.js", some "%SRCROOT%"⟩, some 10⟩ ⟨[toolW], [], [], 0⟩
      = .ok ⟨[toolW], [fndT t₁], [keyT t₁], 1⟩ := by
  rfl

/-- Processing the second `resT t₂` location: because the run-local key and
the pre-insert existence check both use the raw title, a different raw title
`t₂` passes both and a second row is persisted. -/
theorem c10_step2 (t₁ t₂ : String) (hne : t₂ ≠ t₁) :
    processLocation pvW 1 toolW (some t₂) (some "error")
        ⟨some ⟨some "app.js", some "%SRCROOT%"⟩, some 10⟩
        ⟨[toolW], [fndT t₁], [keyT t₁], 1⟩
      = .ok ⟨[toolW], [fndT t₁, fndT t₂], [keyT t₂, keyT t₁], 2⟩ := by
  unfold processLocation processLocationBody
  dsimp only [Option.bind, Option.getD]
  split
  · rename_i heq
    exact absurd heq (by decide)
  · split
    · rename_i hc
      exfalso
      simp [keyT, List.contains_cons] at hc
      exact hne hc
    · split
      · rename_i heq
        exact absurd heq (by decide)
      · rename_i file heq
        have h0 : get_most_likely_source pvW (normalize_file_path "app.js")
            = some ⟨5, "pkg/src/app.js"⟩ := by rfl
        have hfile : (⟨5, "pkg/src/app.js"⟩ : File) = file :=
          Option.some.inj (h0.symm.trans heq)
        subst hfile
        split
        · rename_i hA
          exfalso
          simp [fndT, matchesFinding, pvW] at hA
          exact hne hA.symm
        · rfl

/-- C10: title normalization never influences deduplication.  For two results
whose raw titles differ but normalize to the same canonical title, both the
run-local key and the pre-insert existence check use the raw titles, so both
results are persisted — with distinct raw `title`s and equal
`normalized_title`s (the normalizer's output is stored only in that field). -/
theorem c10_theorem (t₁ t₂ : String) (hne : t₁ ≠ t₂)
    (hnorm : normalize_title t₁ = normalize_title t₂) :
    import_sarif_file (.document (docTT t₁ t₂)) (some pvW) (some 1) ⟨[], []⟩
        = .returned true ⟨[toolW], [fndT t₁, fndT t₂]⟩
      ∧ (fndT t₁).title ≠ (fndT t₂).title
      ∧ (fndT t₁).normalizedTitle = (fndT t₂).normalizedTitle := by
  have hne' : t₂ ≠ t₁ := fun hEq => hne hEq.symm
  refine ⟨?_, hne, hnorm⟩
  have hr1 : processResult pvW 1 toolW (resT t₁) ⟨[toolW], [], [], 0⟩
      = .ok ⟨[toolW], [fndT t₁], [keyT t₁], 1⟩ := by
    unfold processResult
    dsimp only [resT]
    rw [foldlM_ok_cons
        (fun a loc => processLocation pvW 1 toolW (some t₁) (some "error") loc a)
        _ _ _ _ (c10_step1 t₁)]
    rw [foldlM_ok_nil]
  have hr2 : processResult pvW 1 toolW (resT t₂)
        ⟨[toolW], [fndT t₁], [keyT t₁], 1⟩
      = .ok ⟨[toolW], [fndT t₁, fndT t₂], [keyT t₂, keyT t₁], 2⟩ := by
    unfold processResult
    dsimp only [resT]
    rw [foldlM_ok_cons
        (fun a loc => processLocation pvW 1 toolW (some t₂) (some "error") loc a)
        _ _ _ _ (c10_step2 t₁ t₂ hne')]
    rw [foldlM_ok_nil]
  have hrun : processRun pvW 1 ⟨[], [], [], 0⟩
        (⟨some "tn", some "tv", some [], [resT t₁, resT t₂]⟩ : SarifRun)
      = .ok ⟨[toolW], [fndT t₁, fndT t₂], [keyT t₂, keyT t₁], 2⟩ := by
    unfold processRun
    dsimp only
    rw [show getOrCreateTool [] (some "tn") (some "tv") 1 = (toolW, [toolW])
      from rfl]
    try dsimp only
    rw [foldlM_ok_cons (fun a res => processResult pvW 1 toolW res a)
        _ _ _ _ hr1]
    rw [foldlM_ok_cons (fun a res => processResult pvW 1 toolW res a)
        _ _ _ _ hr2]
    rw [foldlM_ok_nil]
  unfold import_sarif_file
  dsimp only [docTT]
  rw [if_pos rfl]
  dsimp only [Option.getD]
  rw [foldlM_ok_cons (fun a run => processRun pvW 1 a run) _ _ _ _ hrun]
  rw [foldlM_ok_nil]
  rfl

/-- Witness for C10: two concrete distinct raw titles that both normalize to
`"Object injection"` are both persisted. -/
theorem c10_witness :
    titleA ≠ titleB
      ∧ normalize_title titleA = normalize_title titleB
      ∧ import_sarif_file (.document (docTT titleA titleB)) (some pvW) (some 1)
            ⟨[], []⟩
          = .returned true ⟨[toolW], [fndT titleA, fndT titleB]⟩ :=
  ⟨by decide, by decide,
    (c10_theorem titleA titleB (by decide) (by decide)).1⟩

end OmegaTriage
